import Mathlib

/-!
Verification of the LightSpeedValidator residual-analysis core
(`src/analyzer.rs`) against its natural-language specification.

The Rust core is embedded shallowly: `f64` values become real numbers,
`Vec<TimingData>` becomes `List TimingData`, `Option<QuantumGravityModel>`
becomes `Option QuantumGravityModel`, and the three analysis methods
`calculate_expected_arrivals`, `detect_anomalies` and
`test_light_speed_constancy` become Lean functions whose bodies mirror the
Rust control flow (the `i < expected_times.len()` loop guard is realised by
`List.zip`, which truncates to the shorter list exactly as the guard does).
-/

open scoped Classical

namespace LightSpeedValidator

/-- A single timing measurement from gamma-ray detection
(`TimingData` in `src/analyzer.rs`). -/
structure TimingData where
  energy : ℝ
  arrival_time : ℝ
  error : ℝ

/-- Quantum gravity model parameters (`QuantumGravityModel` in `src/analyzer.rs`). -/
structure QuantumGravityModel where
  planck_length : ℝ
  quantum_gravity_effect : ℝ
  energy_scale : ℝ

/-- State of the analyzer (`GammaRayAnalyzer` in `src/analyzer.rs`). -/
structure GammaRayAnalyzer where
  measurements : List TimingData
  sensitivity_threshold : ℝ
  quantum_gravity_model : Option QuantumGravityModel

/-- Result record of the light-speed constancy test
(`LightSpeedTestResult` in `src/analyzer.rs`); the Rust `bool` field
`is_valid` is modelled as the proposition the code decides. -/
structure LightSpeedTestResult where
  is_valid : Prop
  confidence_level : ℝ
  deviation_estimate : Option ℝ
  chi_squared : ℝ
  p_value : ℝ
  anomalies_detected : ℕ

/-- Anomaly detection record (`AnomalyDetectionResult` in `src/analyzer.rs`);
the Rust field `deviation` keeps its name. -/
structure AnomalyDetectionResult where
  energy : ℝ
  measured_time : ℝ
  expected_time : ℝ
  deviation : ℝ
  significance : ℝ

/-- `const SPEED_OF_LIGHT: f64 = 299792458.0` in `calculate_expected_arrivals`. -/
def SPEED_OF_LIGHT : ℝ := 299792458

/-- `GammaRayAnalyzer::new` — empty measurements, threshold `1e-12`, no model. -/
noncomputable def GammaRayAnalyzer.new : GammaRayAnalyzer :=
  { measurements := []
    sensitivity_threshold := 1e-12
    quantum_gravity_model := none }

/-- `GammaRayAnalyzer::add_measurement` — pushes a `TimingData` onto the vector. -/
def add_measurement (a : GammaRayAnalyzer) (energy arrival_time error : ℝ) :
    GammaRayAnalyzer :=
  { a with measurements := a.measurements ++ [⟨energy, arrival_time, error⟩] }

/-- `GammaRayAnalyzer::set_sensitivity_threshold`. -/
def set_sensitivity_threshold (a : GammaRayAnalyzer) (threshold : ℝ) :
    GammaRayAnalyzer :=
  { a with sensitivity_threshold := threshold }

/-- `GammaRayAnalyzer::enable_quantum_gravity_simulation`. -/
def enable_quantum_gravity_simulation (a : GammaRayAnalyzer)
    (model : QuantumGravityModel) : GammaRayAnalyzer :=
  { a with quantum_gravity_model := some model }

/-- `GammaRayAnalyzer::calculate_expected_arrivals`: for each measurement,
an energy-dependent delay is subtracted from the measured arrival time when a
quantum-gravity model is active, else the delay is `0`. -/
noncomputable def calculate_expected_arrivals (a : GammaRayAnalyzer) :
    List (ℝ × ℝ) :=
  a.measurements.map fun measurement =>
    let time_delay :=
      match a.quantum_gravity_model with
      | some model =>
          model.quantum_gravity_effect * measurement.energy * measurement.energy /
            (SPEED_OF_LIGHT * SPEED_OF_LIGHT)
      | none => 0
    let expected_time := measurement.arrival_time - time_delay
    (measurement.energy, expected_time)

/-- `GammaRayAnalyzer::detect_anomalies`: emits a record for each measurement
whose deviation from its expected arrival exceeds three measurement errors. -/
noncomputable def detect_anomalies (a : GammaRayAnalyzer) :
    List AnomalyDetectionResult :=
  if a.measurements.isEmpty then []
  else
    (a.measurements.zip (calculate_expected_arrivals a)).filterMap fun p =>
      let measurement := p.1
      let expected_time := p.2.2
      let deviation := measurement.arrival_time - expected_time
      let significance := |deviation| / measurement.error
      if significance > 3 then
        some { energy := measurement.energy
               measured_time := measurement.arrival_time
               expected_time := expected_time
               deviation := deviation
               significance := significance }
      else none

/-- `GammaRayAnalyzer::test_light_speed_constancy`: the main analysis entry
point, combining the chi-squared style aggregation, the approximate p-value,
the weighted deviation estimate and the anomaly count. -/
noncomputable def test_light_speed_constancy (a : GammaRayAnalyzer) :
    LightSpeedTestResult :=
  if a.measurements.isEmpty then
    { is_valid := True
      confidence_level := 0
      deviation_estimate := none
      chi_squared := 0
      p_value := 1
      anomalies_detected := 0 }
  else
    let expected_times := calculate_expected_arrivals a
    let paired := a.measurements.zip expected_times
    let chi_squared :=
      (paired.map fun p =>
        let deviation := p.1.arrival_time - p.2.2
        let weight := 1 / (p.1.error * p.1.error)
        weight * deviation * deviation).sum
    let total_weighted_deviation :=
      (paired.map fun p =>
        let deviation := p.1.arrival_time - p.2.2
        let weight := 1 / (p.1.error * p.1.error)
        weight * deviation).sum
    let total_weight :=
      (paired.map fun p => 1 / (p.1.error * p.1.error)).sum
    let degrees_of_freedom := a.measurements.length - 1
    let p_value :=
      if degrees_of_freedom > 0 then
        if chi_squared > 0 then 1 - Real.exp (-chi_squared / 2) else 1
      else 1
    let confidence_level := 1 - p_value
    let deviation_estimate : Option ℝ :=
      if total_weight > 0 then some (total_weighted_deviation / total_weight)
      else none
    let anomalies := detect_anomalies a
    { is_valid := p_value > 0.05
      confidence_level := confidence_level
      deviation_estimate := deviation_estimate
      chi_squared := chi_squared
      p_value := p_value
      anomalies_detected := anomalies.length }

/-- Shorthand for the energy-dependent delay that `calculate_expected_arrivals`
computes inline: the model's effect coefficient times energy squared over the
speed of light squared when a model is active, `0` otherwise. -/
noncomputable def dispersion_delay (mdl : Option QuantumGravityModel) (e : ℝ) : ℝ :=
  match mdl with
  | some model =>
      model.quantum_gravity_effect * e * e / (SPEED_OF_LIGHT * SPEED_OF_LIGHT)
  | none => 0

lemma dispersion_delay_none (e : ℝ) : dispersion_delay none e = 0 := rfl

lemma dispersion_delay_some (m : QuantumGravityModel) (e : ℝ) :
    dispersion_delay (some m) e =
      m.quantum_gravity_effect * e * e / (SPEED_OF_LIGHT * SPEED_OF_LIGHT) := rfl

lemma calculate_expected_arrivals_eq_map (a : GammaRayAnalyzer) :
    calculate_expected_arrivals a =
      a.measurements.map fun m =>
        (m.energy, m.arrival_time - dispersion_delay a.quantum_gravity_model m.energy) :=
  rfl

lemma zip_self_map {α β : Type} (g : α → β) (l : List α) :
    l.zip (l.map g) = l.map fun x => (x, g x) := by
  induction l with
  | nil => rfl
  | cons a t ih => simp [ih]

lemma zip_calculate (a : GammaRayAnalyzer) :
    a.measurements.zip (calculate_expected_arrivals a) =
      a.measurements.map fun m =>
        (m, (m.energy,
             m.arrival_time - dispersion_delay a.quantum_gravity_model m.energy)) := by
  rw [calculate_expected_arrivals_eq_map]
  exact zip_self_map _ _

/-- The chi-squared accumulator of `test_light_speed_constancy`, written as a
standalone expression (the Rust loop guard `i < expected_times.len()` is the
truncation performed by `List.zip`). -/
noncomputable def codeChi (a : GammaRayAnalyzer) : ℝ :=
  ((a.measurements.zip (calculate_expected_arrivals a)).map fun p =>
    1 / (p.1.error * p.1.error) * (p.1.arrival_time - p.2.2) *
      (p.1.arrival_time - p.2.2)).sum

/-- The `total_weighted_deviation` accumulator of `test_light_speed_constancy`. -/
noncomputable def codeWeightedDevSum (a : GammaRayAnalyzer) : ℝ :=
  ((a.measurements.zip (calculate_expected_arrivals a)).map fun p =>
    1 / (p.1.error * p.1.error) * (p.1.arrival_time - p.2.2)).sum

/-- The `total_weight` accumulator of `test_light_speed_constancy`. -/
noncomputable def codeTotalWeight (a : GammaRayAnalyzer) : ℝ :=
  ((a.measurements.zip (calculate_expected_arrivals a)).map fun p =>
    1 / (p.1.error * p.1.error)).sum

/-- The p-value computed by `test_light_speed_constancy` on a non-empty
collection. -/
noncomputable def codePValue (a : GammaRayAnalyzer) : ℝ :=
  if a.measurements.length - 1 > 0 then
    if codeChi a > 0 then 1 - Real.exp (-codeChi a / 2) else 1
  else 1

lemma test_light_speed_constancy_nonempty (a : GammaRayAnalyzer)
    (h : a.measurements.isEmpty = false) :
    test_light_speed_constancy a =
      { is_valid := codePValue a > 0.05
        confidence_level := 1 - codePValue a
        deviation_estimate :=
          if codeTotalWeight a > 0 then
            some (codeWeightedDevSum a / codeTotalWeight a)
          else none
        chi_squared := codeChi a
        p_value := codePValue a
        anomalies_detected := (detect_anomalies a).length } := by
  unfold test_light_speed_constancy
  rw [h]
  rfl

/-- C1: for an empty measurement collection, `test_light_speed_constancy`
returns exactly {is_valid: true, confidence_level: 0, deviation_estimate:
absent, chi_squared: 0, p_value: 1, anomaly_count: 0}, and both
`calculate_expected_arrivals` and `detect_anomalies` return empty sequences,
whatever the threshold and disperson model are. -/
theorem empty_collection_trivial_result (thr : ℝ)
    (mdl : Option QuantumGravityModel) :
    test_light_speed_constancy ⟨[], thr, mdl⟩ =
      { is_valid := True
        confidence_level := 0
        deviation_estimate := none
        chi_squared := 0
        p_value := 1
        anomalies_detected := 0 } ∧
    calculate_expected_arrivals ⟨[], thr, mdl⟩ = [] ∧
    detect_anomalies ⟨[], thr, mdl⟩ = [] :=
  ⟨by rfl, rfl, by rfl⟩

/-- C2: with no dispersion model active (and all errors strictly positive),
every expected time equals the measured arrival time, so the goodness-of-fit
statistic is `0`, the p-value is `1`, the result is valid and no anomaly is
detected. -/
theorem no_model_zero_residuals (a : GammaRayAnalyzer)
    (hm : a.quantum_gravity_model = none)
    (herr : ∀ m ∈ a.measurements, 0 < m.error) :
    calculate_expected_arrivals a =
      a.measurements.map (fun m => (m.energy, m.arrival_time)) ∧
    (test_light_speed_constancy a).chi_squared = 0 ∧
    (test_light_speed_constancy a).p_value = 1 ∧
    (test_light_speed_constancy a).is_valid ∧
    (test_light_speed_constancy a).anomalies_detected = 0 := by
  have hexp : calculate_expected_arrivals a =
      a.measurements.map fun m => (m.energy, m.arrival_time) := by
    rw [calculate_expected_arrivals_eq_map, hm]
    simp [dispersion_delay_none]
  have hchi : codeChi a = 0 := by
    rw [codeChi, zip_calculate, hm, List.map_map]
    refine List.sum_eq_zero ?_
    intro x hx
    rw [List.mem_map] at hx
    obtain ⟨m, hmem, rfl⟩ := hx
    simp [dispersion_delay_none]
  have hdet : detect_anomalies a = [] := by
    unfold detect_anomalies
    split
    · rfl
    · rw [zip_calculate, hm, List.filterMap_eq_nil_iff]
      intro x hx
      rw [List.mem_map] at hx
      obtain ⟨m, hmem, rfl⟩ := hx
      simp [dispersion_delay_none]
  by_cases hE : a.measurements.isEmpty = true
  · have ht : test_light_speed_constancy a =
        { is_valid := True
          confidence_level := 0
          deviation_estimate := none
          chi_squared := 0
          p_value := 1
          anomalies_detected := 0 } := by
      unfold test_light_speed_constancy
      rw [hE]
      rfl
    rw [hexp, ht]
    exact ⟨rfl, rfl, rfl, trivial, rfl⟩
  · have hE' : a.measurements.isEmpty = false := by
      cases h : a.measurements.isEmpty
      · rfl
      · exact absurd h hE
    have hp : codePValue a = 1 := by
      rw [codePValue, hchi]
      simp
    rw [hexp, test_light_speed_constancy_nonempty a hE']
    refine ⟨rfl, hchi, hp, ?_, ?_⟩
    · show codePValue a > 0.05
      rw [hp]
      norm_num
    · show (detect_anomalies a).length = 0
      rw [hdet]
      rfl

/-- The three measurements of the spec's worked example (§8):
`(100, 1234567890.123, 0.001)`, `(200, 1234567891.456, 0.002)`,
`(500, 1234567893.789, 0.003)`. -/
noncomputable def threeMeasurements : List TimingData :=
  [⟨100, 1234567890.123, 0.001⟩, ⟨200, 1234567891.456, 0.002⟩,
   ⟨500, 1234567893.789, 0.003⟩]

/-- Analyzer holding the spec's three worked-example measurements, with no
dispersion model. -/
noncomputable def threeMeasurementAnalyzer : GammaRayAnalyzer :=
  ⟨threeMeasurements, 1e-12, none⟩

theorem no_model_zero_residuals_witness :
    threeMeasurementAnalyzer.quantum_gravity_model = none ∧
    (∀ m ∈ threeMeasurementAnalyzer.measurements, 0 < m.error) ∧
    calculate_expected_arrivals threeMeasurementAnalyzer =
      [(100, 1234567890.123), (200, 1234567891.456), (500, 1234567893.789)] ∧
    (test_light_speed_constancy threeMeasurementAnalyzer).chi_squared = 0 ∧
    (test_light_speed_constancy threeMeasurementAnalyzer).p_value = 1 ∧
    (test_light_speed_constancy threeMeasurementAnalyzer).is_valid ∧
    (test_light_speed_constancy threeMeasurementAnalyzer).anomalies_detected = 0 := by
  have herr : ∀ m ∈ threeMeasurementAnalyzer.measurements, 0 < m.error := by
    intro m hm
    simp only [threeMeasurementAnalyzer, threeMeasurements, List.mem_cons,
      List.not_mem_nil, or_false] at hm
    rcases hm with rfl | rfl | rfl <;> norm_num
  have h := no_model_zero_residuals threeMeasurementAnalyzer rfl herr
  refine ⟨rfl, herr, ?_, h.2.1, h.2.2.1, h.2.2.2.1, h.2.2.2.2⟩
  rw [h.1]
  rfl

/-- C7: the configured sensitivity threshold is never consulted — two analyzer
states that differ only in `sensitivity_threshold` produce identical analysis
results, expected arrivals and anomaly lists, and `set_sensitivity_threshold`
does not change any of these outputs. -/
theorem sensitivity_threshold_never_consulted (ms : List TimingData)
    (mdl : Option QuantumGravityModel) (t₁ t₂ : ℝ) (a : GammaRayAnalyzer) :
    (test_light_speed_constancy ⟨ms, t₁, mdl⟩ =
        test_light_speed_constancy ⟨ms, t₂, mdl⟩ ∧
      detect_anomalies ⟨ms, t₁, mdl⟩ = detect_anomalies ⟨ms, t₂, mdl⟩ ∧
      calculate_expected_arrivals ⟨ms, t₁, mdl⟩ =
        calculate_expected_arrivals ⟨ms, t₂, mdl⟩) ∧
    (test_light_speed_constancy (set_sensitivity_threshold a t₁) =
        test_light_speed_constancy a ∧
      detect_anomalies (set_sensitivity_threshold a t₁) = detect_anomalies a) :=
  ⟨⟨rfl, rfl, rfl⟩, rfl, rfl⟩

/-- C10: the `planck_length` and `energy_scale` fields of the quantum-gravity
model never influence any output — two models that agree on
`quantum_gravity_effect` yield identical expected arrivals, anomaly lists and
analysis results. -/
theorem model_extra_fields_never_influence (ms : List TimingData)
    (thr eff pl₁ es₁ pl₂ es₂ : ℝ) :
    calculate_expected_arrivals ⟨ms, thr, some ⟨pl₁, eff, es₁⟩⟩ =
      calculate_expected_arrivals ⟨ms, thr, some ⟨pl₂, eff, es₂⟩⟩ ∧
    detect_anomalies ⟨ms, thr, some ⟨pl₁, eff, es₁⟩⟩ =
      detect_anomalies ⟨ms, thr, some ⟨pl₂, eff, es₂⟩⟩ ∧
    test_light_speed_constancy ⟨ms, thr, some ⟨pl₁, eff, es₁⟩⟩ =
      test_light_speed_constancy ⟨ms, thr, some ⟨pl₂, eff, es₂⟩⟩ :=
  ⟨rfl, rfl, rfl⟩

lemma calculate_expected_arrivals_length (a : GammaRayAnalyzer) :
    (calculate_expected_arrivals a).length = a.measurements.length := by
  rw [calculate_expected_arrivals_eq_map, List.length_map]

lemma get_map_fin {α β : Type} (g : α → β) :
    ∀ (l : List α) (i : ℕ) (h : i < l.length) (h' : i < (l.map g).length),
      (l.map g).get ⟨i, h'⟩ = g (l.get ⟨i, h⟩) := by
  intro l
  induction l with
  | nil => intro i h _; exact absurd h (Nat.not_lt_zero i)
  | cons a t ih =>
    intro i h h'
    cases i with
    | zero => rfl
    | succ j => exact ih j (Nat.lt_of_succ_lt_succ h) (Nat.lt_of_succ_lt_succ h')

/-- Entry `i` of the expected-arrival sequence, indexed by measurement
position (the two sequences have equal length). -/
noncomputable def expectedEntry (a : GammaRayAnalyzer)
    (i : Fin a.measurements.length) : ℝ × ℝ :=
  (calculate_expected_arrivals a).get
    (Fin.cast (calculate_expected_arrivals_length a).symm i)

lemma expectedEntry_eq (a : GammaRayAnalyzer) (i : Fin a.measurements.length) :
    expectedEntry a i =
      ((a.measurements.get i).energy,
       (a.measurements.get i).arrival_time -
         dispersion_delay a.quantum_gravity_model (a.measurements.get i).energy) := by
  unfold expectedEntry
  have h' : i.1 < (a.measurements.map fun m =>
      (m.energy,
       m.arrival_time -
         dispersion_delay a.quantum_gravity_model m.energy)).length := by
    rw [List.length_map]
    exact i.2
  exact get_map_fin _ a.measurements i.1 i.2 h'

/-- C3: `calculate_expected_arrivals` returns one `(energy, expected_time)`
pair per measurement in input order, with `expected_time` equal to the
measured arrival time minus the model delay (`effect · energy² / c²` when a
model is active, `0` otherwise); consequently, under an active model, the
residual of each measurement equals exactly the model's delay for its
energy. -/
theorem expected_arrivals_shape (a : GammaRayAnalyzer) :
    (calculate_expected_arrivals a).length = a.measurements.length ∧
    (∀ i : Fin a.measurements.length,
      expectedEntry a i =
        ((a.measurements.get i).energy,
         (a.measurements.get i).arrival_time -
           dispersion_delay a.quantum_gravity_model
             (a.measurements.get i).energy)) ∧
    (∀ mdl : QuantumGravityModel, a.quantum_gravity_model = some mdl →
      ∀ i : Fin a.measurements.length,
        (a.measurements.get i).arrival_time - (expectedEntry a i).2 =
          mdl.quantum_gravity_effect * (a.measurements.get i).energy ^ 2 /
            SPEED_OF_LIGHT ^ 2) := by
  refine ⟨calculate_expected_arrivals_length a, expectedEntry_eq a, ?_⟩
  intro mdl hm i
  rw [expectedEntry_eq a i, hm]
  simp only [dispersion_delay_some]
  ring

/-- A quantum-gravity model with the default CLI parameters
(`length_scale=1.616e-35`, `effect_coefficient=1e-20`, `energy_scale=1e19`). -/
noncomputable def sampleModel : QuantumGravityModel := ⟨1.616e-35, 1e-20, 1e19⟩

/-- A one-measurement analyzer with the default quantum-gravity model active. -/
noncomputable def sampleModelAnalyzer : GammaRayAnalyzer :=
  ⟨[⟨100, 1234567890.123, 0.001⟩], 1e-12, some sampleModel⟩

theorem expected_arrivals_shape_witness :
    sampleModelAnalyzer.quantum_gravity_model = some sampleModel ∧
    (0 : ℕ) < sampleModelAnalyzer.measurements.length ∧
    (sampleModelAnalyzer.measurements.get
        ⟨0, Nat.zero_lt_one⟩).arrival_time -
        (expectedEntry sampleModelAnalyzer ⟨0, Nat.zero_lt_one⟩).2 =
      sampleModel.quantum_gravity_effect *
        (sampleModelAnalyzer.measurements.get ⟨0, Nat.zero_lt_one⟩).energy ^ 2 /
        SPEED_OF_LIGHT ^ 2 :=
  ⟨rfl, Nat.zero_lt_one,
    (expected_arrivals_shape sampleModelAnalyzer).2.2 sampleModel rfl
      ⟨0, Nat.zero_lt_one⟩⟩

/-- Modelled from the spec's words (§4.3): `residual_i = arrival_time_i −
expected_time_i` against the expected-arrival sequence. -/
noncomputable def specResidual (a : GammaRayAnalyzer)
    (i : Fin a.measurements.length) : ℝ :=
  (a.measurements.get i).arrival_time - (expectedEntry a i).2

/-- Modelled from the spec's words (§4.3): `weight_i = 1 / error_i²`. -/
noncomputable def specWeight (a : GammaRayAnalyzer)
    (i : Fin a.measurements.length) : ℝ :=
  1 / (a.measurements.get i).error ^ 2

/-- Modelled from the spec's words (§4.3): `goodness_of_fit_statistic =
Σ weight_i · residual_i²`. -/
noncomputable def specGoodnessOfFit (a : GammaRayAnalyzer) : ℝ :=
  ∑ i, specWeight a i * specResidual a i ^ 2

/-- Modelled from the spec's words (§4.3): `weighted_deviation_sum =
Σ weight_i · residual_i`. -/
noncomputable def specWeightedDeviationSum (a : GammaRayAnalyzer) : ℝ :=
  ∑ i, specWeight a i * specResidual a i

/-- Modelled from the spec's words (§4.3): `total_weight = Σ weight_i`. -/
noncomputable def specTotalWeight (a : GammaRayAnalyzer) : ℝ :=
  ∑ i, specWeight a i

lemma list_map_sum_eq_fin_sum {α : Type} (f : α → ℝ) (l : List α) :
    (l.map f).sum = ∑ i : Fin l.length, f (l.get i) := by
  rw [← Fin.sum_univ_get' l f]
  exact Finset.sum_congr rfl fun i _ => by rw [List.get_eq_getElem]

lemma codeChi_eq_spec (a : GammaRayAnalyzer) :
    codeChi a = specGoodnessOfFit a := by
  unfold codeChi specGoodnessOfFit specWeight specResidual
  rw [zip_calculate, List.map_map, list_map_sum_eq_fin_sum]
  refine Finset.sum_congr rfl fun i _ => ?_
  rw [expectedEntry_eq]
  simp only [Function.comp_apply]
  ring

lemma codeWeightedDevSum_eq_spec (a : GammaRayAnalyzer) :
    codeWeightedDevSum a = specWeightedDeviationSum a := by
  unfold codeWeightedDevSum specWeightedDeviationSum specWeight specResidual
  rw [zip_calculate, List.map_map, list_map_sum_eq_fin_sum]
  refine Finset.sum_congr rfl fun i _ => ?_
  rw [expectedEntry_eq]
  simp only [Function.comp_apply]
  ring

lemma codeTotalWeight_eq_spec (a : GammaRayAnalyzer) :
    codeTotalWeight a = specTotalWeight a := by
  unfold codeTotalWeight specTotalWeight specWeight
  rw [zip_calculate, List.map_map, list_map_sum_eq_fin_sum]
  refine Finset.sum_congr rfl fun i _ => ?_
  simp only [Function.comp_apply]
  ring

lemma codeChi_nonneg (a : GammaRayAnalyzer) : 0 ≤ codeChi a := by
  unfold codeChi
  refine List.sum_nonneg ?_
  intro x hx
  rw [List.mem_map] at hx
  obtain ⟨p, hp, rfl⟩ := hx
  have h1 : 0 ≤ 1 / (p.1.error * p.1.error) :=
    one_div_nonneg.mpr (mul_self_nonneg _)
  rw [mul_assoc]
  exact mul_nonneg h1 (mul_self_nonneg _)

/-- C4: on any non-empty collection the result's fields satisfy the spec's
formulas: the statistic is `Σ weight_i · residual_i²`, the deviation estimate
is the weighted mean when the total weight is positive and absent otherwise,
the p-value is `1` when the degrees of freedom (`n − 1`, truncated) are `0`
or the statistic is `0` and `1 − exp(−statistic/2)` otherwise, the confidence
level is `1 − p_value`, and validity is the decision `p_value > 0.05`. -/
theorem aggregation_matches_spec (a : GammaRayAnalyzer)
    (h : a.measurements ≠ []) :
    (test_light_speed_constancy a).chi_squared = specGoodnessOfFit a ∧
    (test_light_speed_constancy a).deviation_estimate =
      (if specTotalWeight a > 0 then
        some (specWeightedDeviationSum a / specTotalWeight a)
      else none) ∧
    (test_light_speed_constancy a).p_value =
      (if a.measurements.length - 1 = 0 ∨ specGoodnessOfFit a = 0 then 1
       else 1 - Real.exp (-specGoodnessOfFit a / 2)) ∧
    (test_light_speed_constancy a).confidence_level =
      1 - (test_light_speed_constancy a).p_value ∧
    ((test_light_speed_constancy a).is_valid ↔
      (test_light_speed_constancy a).p_value > 0.05) := by
  have hE : a.measurements.isEmpty = false := by
    simpa using h
  rw [test_light_speed_constancy_nonempty a hE]
  refine ⟨codeChi_eq_spec a, ?_, ?_, rfl, Iff.rfl⟩
  · show (if codeTotalWeight a > 0 then
        some (codeWeightedDevSum a / codeTotalWeight a) else none) = _
    rw [codeTotalWeight_eq_spec, codeWeightedDevSum_eq_spec]
  · show codePValue a = _
    unfold codePValue
    rw [codeChi_eq_spec]
    have hnn : 0 ≤ specGoodnessOfFit a := by
      rw [← codeChi_eq_spec]
      exact codeChi_nonneg a
    rcases Nat.eq_zero_or_pos (a.measurements.length - 1) with h0 | h0
    · rw [if_neg (by omega), if_pos (Or.inl h0)]
    · rw [if_pos h0]
      rcases eq_or_lt_of_le hnn with hc | hc
      · rw [if_neg (by rw [← hc]; exact lt_irrefl 0),
          if_pos (Or.inr hc.symm)]
      · rw [if_pos hc,
          if_neg (by push_neg; exact ⟨by omega, ne_of_gt hc⟩)]

theorem aggregation_matches_spec_witness :
    threeMeasurementAnalyzer.measurements ≠ [] ∧
    ((test_light_speed_constancy threeMeasurementAnalyzer).chi_squared =
        specGoodnessOfFit threeMeasurementAnalyzer ∧
      (test_light_speed_constancy threeMeasurementAnalyzer).deviation_estimate =
        (if specTotalWeight threeMeasurementAnalyzer > 0 then
          some (specWeightedDeviationSum threeMeasurementAnalyzer /
            specTotalWeight threeMeasurementAnalyzer)
        else none) ∧
      (test_light_speed_constancy threeMeasurementAnalyzer).p_value =
        (if threeMeasurementAnalyzer.measurements.length - 1 = 0 ∨
            specGoodnessOfFit threeMeasurementAnalyzer = 0 then 1
         else 1 - Real.exp (-specGoodnessOfFit threeMeasurementAnalyzer / 2)) ∧
      (test_light_speed_constancy threeMeasurementAnalyzer).confidence_level =
        1 - (test_light_speed_constancy threeMeasurementAnalyzer).p_value ∧
      ((test_light_speed_constancy threeMeasurementAnalyzer).is_valid ↔
        (test_light_speed_constancy threeMeasurementAnalyzer).p_value > 0.05)) :=
  ⟨by simp [threeMeasurementAnalyzer, threeMeasurements],
   aggregation_matches_spec threeMeasurementAnalyzer
     (by simp [threeMeasurementAnalyzer, threeMeasurements])⟩

/-- The anomaly record that `detect_anomalies` builds for a
measurement/expected-arrival pair. -/
noncomputable def mkAnomalyRecord (p : TimingData × (ℝ × ℝ)) :
    AnomalyDetectionResult :=
  { energy := p.1.energy
    measured_time := p.1.arrival_time
    expected_time := p.2.2
    deviation := p.1.arrival_time - p.2.2
    significance := |p.1.arrival_time - p.2.2| / p.1.error }

lemma filterMap_if_eq_filter_map {α β : Type} (f : α → β) (p : β → Prop)
    [DecidablePred p] (l : List α) :
    (l.filterMap fun x => if p (f x) then some (f x) else none) =
      (l.map f).filter fun x => decide (p x) := by
  induction l with
  | nil => rfl
  | cons a t ih =>
    by_cases h : p (f a)
    · simp [List.filterMap_cons, List.filter_cons, h, ih]
    · simp [List.filterMap_cons, List.filter_cons, h, ih]

lemma detect_anomalies_eq_filter (a : GammaRayAnalyzer) :
    detect_anomalies a =
      ((a.measurements.zip (calculate_expected_arrivals a)).map
          mkAnomalyRecord).filter (fun r => decide (r.significance > 3)) := by
  unfold detect_anomalies
  split
  · rename_i h
    have hnil : a.measurements = [] := by simpa using h
    rw [hnil]
    rfl
  · exact filterMap_if_eq_filter_map mkAnomalyRecord
      (fun r => r.significance > 3) _

lemma anomalies_detected_eq_length (a : GammaRayAnalyzer) :
    (test_light_speed_constancy a).anomalies_detected =
      (detect_anomalies a).length := by
  by_cases hE : a.measurements.isEmpty = true
  · unfold test_light_speed_constancy detect_anomalies
    rw [hE]
    rfl
  · have hE' : a.measurements.isEmpty = false := by simpa using hE
    rw [test_light_speed_constancy_nonempty a hE']

/-- A single measurement sitting at exactly three sigma: the active model's
delay is `3 · c²·1²/c² = 3` seconds and the measurement error is `1` second,
so the significance is exactly `3`. -/
noncomputable def boundarySigmaAnalyzer : GammaRayAnalyzer :=
  ⟨[⟨1, 0, 1⟩], 1e-12, some ⟨0, 3 * (299792458 * 299792458), 0⟩⟩

lemma boundary_not_flagged : detect_anomalies boundarySigmaAnalyzer = [] := by
  unfold detect_anomalies
  split
  · rfl
  · rw [zip_calculate, List.filterMap_eq_nil_iff]
    intro x hx
    rw [List.mem_map] at hx
    obtain ⟨m, hmem, rfl⟩ := hx
    simp only [boundarySigmaAnalyzer, List.mem_cons, List.not_mem_nil,
      or_false] at hmem
    subst hmem
    rw [if_neg]
    norm_num [boundarySigmaAnalyzer, dispersion_delay_some, SPEED_OF_LIGHT]

/-- C5: `detect_anomalies` is exactly the in-order filter, over the
measurement/expected pairs, of the records whose significance
`|residual|/error` strictly exceeds `3` (so a significance of exactly `3` is
not flagged, as the boundary instance shows), and the result's
`anomalies_detected` equals the length of `detect_anomalies`' output. -/
theorem anomaly_flagging_rule (a : GammaRayAnalyzer) :
    (test_light_speed_constancy a).anomalies_detected =
      (detect_anomalies a).length ∧
    detect_anomalies a =
      ((a.measurements.zip (calculate_expected_arrivals a)).map
          mkAnomalyRecord).filter (fun r => decide (r.significance > 3)) ∧
    detect_anomalies boundarySigmaAnalyzer = [] :=
  ⟨anomalies_detected_eq_length a, detect_anomalies_eq_filter a,
    boundary_not_flagged⟩

lemma test_chi_squared_eq (a : GammaRayAnalyzer) :
    (test_light_speed_constancy a).chi_squared = codeChi a := by
  by_cases hE : a.measurements.isEmpty = true
  · have hnil : a.measurements = [] := by simpa using hE
    unfold test_light_speed_constancy
    rw [hE]
    show (0 : ℝ) = codeChi a
    unfold codeChi
    rw [hnil]
    rfl
  · have hE' : a.measurements.isEmpty = false := by simpa using hE
    rw [test_light_speed_constancy_nonempty a hE']

/-- The model with its effect coefficient scaled by `k` and the other two
fields unchanged. -/
noncomputable def scale_effect (k : ℝ) (mdl : QuantumGravityModel) :
    QuantumGravityModel :=
  ⟨mdl.planck_length, k * mdl.quantum_gravity_effect, mdl.energy_scale⟩

/-- C8: scaling the active model's effect coefficient by `k` scales every
residual by `k` (holding the errors fixed) and therefore scales the
goodness-of-fit statistic by exactly `k²`. -/
theorem residual_scaling (ms : List TimingData) (thr : ℝ)
    (mdl : QuantumGravityModel) (k : ℝ) :
    (∀ i : Fin ms.length,
      specResidual ⟨ms, thr, some (scale_effect k mdl)⟩ i =
        k * specResidual ⟨ms, thr, some mdl⟩ i) ∧
    (test_light_speed_constancy ⟨ms, thr, some (scale_effect k mdl)⟩).chi_squared =
      k ^ 2 *
        (test_light_speed_constancy ⟨ms, thr, some mdl⟩).chi_squared := by
  constructor
  · intro i
    unfold specResidual
    rw [expectedEntry_eq, expectedEntry_eq]
    simp only [dispersion_delay_some, scale_effect]
    ring
  · rw [test_chi_squared_eq, test_chi_squared_eq]
    unfold codeChi
    rw [zip_calculate, zip_calculate, List.map_map, List.map_map]
    induction ms with
    | nil => simp
    | cons m t ih =>
      simp only [List.map_cons, List.sum_cons, Function.comp_apply]
      rw [ih]
      simp only [dispersion_delay_some, scale_effect]
      ring

/-- A single measurement (energy `1`, arrival `0`, error `1`) under an active
model whose effect coefficient is `4·c²`, giving delay `4` and significance
`4 > 3`: one anomaly, yet zero degrees of freedom. -/
noncomputable def anomalousSingleton : GammaRayAnalyzer :=
  ⟨[⟨1, 0, 1⟩], 1e-12, some ⟨1.616e-35, 4 * (299792458 * 299792458), 1e19⟩⟩

/-- C9: every single-measurement analyzer — any energy, arrival time, error,
threshold and optional model — yields p_value 1, confidence_level 0 and a
valid result (degrees of freedom are 0); and for the concrete
`anomalousSingleton` input, `is_valid` holds together with
`anomalies_detected = 1`. -/
theorem single_measurement_always_valid :
    (∀ (e t err thr : ℝ) (mdl : Option QuantumGravityModel),
      (test_light_speed_constancy ⟨[⟨e, t, err⟩], thr, mdl⟩).p_value = 1 ∧
      (test_light_speed_constancy ⟨[⟨e, t, err⟩], thr, mdl⟩).confidence_level =
        0 ∧
      (test_light_speed_constancy ⟨[⟨e, t, err⟩], thr, mdl⟩).is_valid) ∧
    ((test_light_speed_constancy anomalousSingleton).is_valid ∧
      (test_light_speed_constancy anomalousSingleton).anomalies_detected = 1) := by
  have key : ∀ (m : TimingData) (thr : ℝ) (mdl : Option QuantumGravityModel),
      codePValue ⟨[m], thr, mdl⟩ = 1 := by
    intro m thr mdl
    unfold codePValue
    norm_num
  constructor
  · intro e t err thr mdl
    rw [test_light_speed_constancy_nonempty ⟨[⟨e, t, err⟩], thr, mdl⟩ rfl]
    refine ⟨key ⟨e, t, err⟩ thr mdl, ?_, ?_⟩
    · show 1 - codePValue ⟨[⟨e, t, err⟩], thr, mdl⟩ = 0
      rw [key]
      ring
    · show codePValue ⟨[⟨e, t, err⟩], thr, mdl⟩ > 0.05
      rw [key]
      norm_num
  · constructor
    · rw [test_light_speed_constancy_nonempty anomalousSingleton rfl]
      show codePValue anomalousSingleton > 0.05
      rw [show codePValue anomalousSingleton = 1 from key _ _ _]
      norm_num
    · rw [test_light_speed_constancy_nonempty anomalousSingleton rfl]
      show (detect_anomalies anomalousSingleton).length = 1
      rw [detect_anomalies_eq_filter, zip_calculate]
      simp only [anomalousSingleton, List.map_cons, List.map_nil,
        List.filter_cons, List.filter_nil]
      rw [if_pos]
      · rfl
      · norm_num [mkAnomalyRecord, dispersion_delay_some, SPEED_OF_LIGHT]

/-- C6 evaluation: a measurement whose error is `−1` (non-positive) is
appended unconditionally by `add_measurement` and then enters the weighted
aggregation of `test_light_speed_constancy` with weight `1/(−1)² = 1`; in
particular the total weight is `1` and the deviation estimate comes out as
`some 0`, not the absent value that exclusion of the invalid measurement
would produce. -/
theorem invalid_error_measurement_included :
    (add_measurement GammaRayAnalyzer.new 100 5 (-1)).measurements =
      [⟨100, 5, -1⟩] ∧
    codeTotalWeight (add_measurement GammaRayAnalyzer.new 100 5 (-1)) = 1 ∧
    (test_light_speed_constancy
        (add_measurement GammaRayAnalyzer.new 100 5 (-1))).deviation_estimate =
      some 0 := by
  have htw : codeTotalWeight (add_measurement GammaRayAnalyzer.new 100 5 (-1)) = 1 := by
    unfold codeTotalWeight
    rw [zip_calculate]
    norm_num [add_measurement, GammaRayAnalyzer.new]
  have hwds : codeWeightedDevSum (add_measurement GammaRayAnalyzer.new 100 5 (-1)) = 0 := by
    unfold codeWeightedDevSum
    rw [zip_calculate]
    norm_num [add_measurement, GammaRayAnalyzer.new, dispersion_delay_none]
  refine ⟨rfl, htw, ?_⟩
  rw [test_light_speed_constancy_nonempty
    (add_measurement GammaRayAnalyzer.new 100 5 (-1)) rfl]
  show (if codeTotalWeight (add_measurement GammaRayAnalyzer.new 100 5 (-1)) > 0 then
      some (codeWeightedDevSum (add_measurement GammaRayAnalyzer.new 100 5 (-1)) /
        codeTotalWeight (add_measurement GammaRayAnalyzer.new 100 5 (-1)))
    else none) = some 0
  rw [htw, hwds]
  norm_num

end LightSpeedValidator
